import Mathlib

/-!
Verification of the sync engine of `tap_saasoptics/sync.py` (bytecodeio/tap-saasoptics).

The development shallowly embeds the extraction engine:

* records are association lists from field names to values drawn from a
  linearly ordered type `V` (integer cursors instantiate `V := Int`;
  datetime cursors are order-isomorphic to timestamps, also `Int`);
* the singer library collaborators (`Transformer.transform`,
  `transform_datetime`, `transform_json`) are external to the repository and
  enter the model as explicit function parameters / spec-modelled lookups;
* stateful code (the bookmark store mutated by `write_bookmark`, the shared
  `params` dict) is passed explicitly;
* fallible code paths (Python `TypeError` / `NameError`) are modelled with
  `Except`;
* `LOGGER.info` calls, including their format-argument expressions, are
  elided as logging I/O (the spec excludes logging from the core).  One such
  elided expression (sync.py line 157) reads an undefined name
  `bookmark_query_field`; it is outside every modelled component.
* machine integers do not overflow here (Python ints are unbounded), so
  `Int`/`Nat` are used directly.
-/

namespace Tap

/-- Truthiness of an optional Python string: `None` and `''` are falsy. -/
def truthyS : Option String → Bool
  | none => false
  | some s => s ≠ ""

/-- Replication ("bookmark") type of a stream.  The source compares the
`bookmark_type` string against `'integer'` and `'datetime'`; any other value
(including Python `None`) falls through both branches and is modelled as
`Option.none` at use sites. -/
inductive BType where
  | integer
  | datetime
deriving DecidableEq, Repr

/-- Record: a Python dict from field names to values, as an association list
(first binding of a key wins, as `rset` below keeps keys unique the way a
dict does). -/
def Record (V : Type) : Type := List (String × V)

instance {V : Type} [DecidableEq V] : DecidableEq (Record V) := by
  unfold Record; infer_instance

/-- Dictionary lookup `r[k]` / `k in r`. -/
def rget {V : Type} (r : Record V) (k : String) : Option V :=
  match r with
  | [] => none
  | (k', v) :: t => if k' = k then some v else rget t k

/-- Dictionary update `d[k] = v`: replace the binding in place, else append
(Python dicts keep insertion order). -/
def setEntry {α : Type} (l : List (String × α)) (k : String) (v : α) :
    List (String × α) :=
  match l with
  | [] => [(k, v)]
  | (k', v') :: t => if k' = k then (k, v) :: t else (k', v') :: setEntry t k v

/-- Record update is dictionary update. -/
def rset {V : Type} (r : Record V) (k : String) (v : V) : Record V :=
  setEntry r k v

theorem rget_rset_self {V : Type} (r : Record V) (k : String) (v : V) :
    rget (rset r k v) k = some v := by
  induction r with
  | nil => simp [rset, setEntry, rget]
  | cons h t ih =>
    by_cases hk : h.1 = k
    · simp [rset, setEntry, hk, rget]
    · simpa [rset, setEntry, hk, rget] using ih

/-- Parent-id annotation, sync.py lines 72-74:
`if parent_id and parent: record[parent + '_id'] = parent_id`.
`truthy` is Python truthiness on the value type (for `Int` ids, `(· ≠ 0)`). -/
def annotate {V : Type} (truthy : V → Bool) (parent : Option String)
    (parentId : Option V) (r : Record V) : Record V :=
  match parentId, parent with
  | some pid, some p => if truthy pid ∧ p ≠ "" then rset r (p ++ "_id") pid else r
  | _, _ => r

/-- Staged record: the record as it stands after annotation and after the
singer `Transformer.transform` call (`tf`, an external collaborator),
sync.py lines 72-80. -/
def stageRecord {V : Type} (tf : Record V → Record V) (truthy : V → Bool)
    (parent : Option String) (parentId : Option V) (r : Record V) : Record V :=
  tf (annotate truthy parent parentId r)

/-- Bookmark-field read guarded the way lines 83 and 88 guard it:
`bookmark_field and (bookmark_field in transformed_record)`; yields the
record's replication-key value when the conjunction is truthy. -/
def bmLookup {V : Type} (bfO : Option String) (t : Record V) : Option V :=
  match bfO with
  | none => none
  | some bf => if bf = "" then none else rget t bf

/-- Running-maximum update, sync.py lines 84-86:
`if (max_bookmark_value is None) or (value > max_bookmark_value)`. -/
def bumpMax {V : Type} [LinearOrder V] (maxBm : Option V) (v : V) : Option V :=
  match maxBm with
  | none => some v
  | some m => if m < v then some v else some m

/-- Incremental filter decision for a record that has the replication-key
value `v`, sync.py lines 89-100.  The comparisons against a Python `None`
watermark raise `TypeError`; that is the `.error` case.  `normDt` models the
singer `transform_datetime` normalization applied on line 95-96.  A
`bookmark_type` that is neither `'integer'` nor `'datetime'` takes neither
branch, so the record is not emitted (`.ok false`). -/
def recFilter {V : Type} [LinearOrder V] (normDt : V → V) (bt : Option BType)
    (ld li : Option V) (v : V) : Except Unit Bool :=
  match bt with
  | some .integer =>
    match li with
    | some l => .ok (decide (l ≤ v))
    | none => .error ()
  | some .datetime =>
    match ld with
    | some l => .ok (decide (normDt l ≤ normDt v))
    | none => .error ()
  | none => .ok false

/-- Result of one record of the `process_records` loop: the new running max,
the staged (transformed) record, and whether it was written. -/
def process_one {V : Type} [LinearOrder V] (tf : Record V → Record V)
    (normDt : V → V) (truthy : V → Bool) (bfO : Option String)
    (bt : Option BType) (ld li : Option V) (parent : Option String)
    (parentId : Option V) (maxBm : Option V) (r : Record V) :
    Except Unit (Option V × Record V × Bool) :=
  let t := stageRecord tf truthy parent parentId r
  match bmLookup bfO t with
  | some v => (recFilter normDt bt ld li v).map (fun b => (bumpMax maxBm v, t, b))
  | none => .ok (maxBm, t, true)

/-- Observations of a full `process_records` call: the returned
`max_bookmark_value`, the staged records seen (in order), and the records
actually written to the sink (in order).  The singer counter's final value is
`emitted.length` (it is incremented exactly at each `write_record`). -/
structure PRResult (V : Type) where
  maxBm : Option V
  staged : List (Record V)
  emitted : List (Record V)
deriving DecidableEq

/-- Shallow embedding of `process_records`, sync.py lines 55-105, for one
page of records.  An uncaught Python `TypeError` (watermark `None` compared
against a value) is `.error ()`. -/
def process_records {V : Type} [LinearOrder V] (tf : Record V → Record V)
    (normDt : V → V) (truthy : V → Bool) (bfO : Option String)
    (bt : Option BType) (ld li : Option V) (parent : Option String)
    (parentId : Option V) :
    List (Record V) → Option V → Except Unit (PRResult V)
  | [], maxBm => .ok ⟨maxBm, [], []⟩
  | r :: rs, maxBm =>
    match process_one tf normDt truthy bfO bt ld li parent parentId maxBm r with
    | .error e => .error e
    | .ok (m', t, b) =>
      match process_records tf normDt truthy bfO bt ld li parent parentId rs m' with
      | .error e => .error e
      | .ok pr => .ok ⟨pr.maxBm, t :: pr.staged, if b then t :: pr.emitted else pr.emitted⟩

/-- Boolean form of the emission decision for a staged record, used to state
what `process_records` emits.  It matches `recFilter` on runs that did not
raise. -/
def passB {V : Type} [LinearOrder V] (normDt : V → V) (bfO : Option String)
    (bt : Option BType) (ld li : Option V) (t : Record V) : Bool :=
  match bmLookup bfO t with
  | none => true
  | some v =>
    match recFilter normDt bt ld li v with
    | .ok b => b
    | .error _ => false

section ProcessRecordsLemmas

variable {V : Type} [LinearOrder V]
variable (tf : Record V → Record V) (normDt : V → V) (truthy : V → Bool)
variable (bfO : Option String) (bt : Option BType) (ld li : Option V)
variable (parent : Option String) (parentId : Option V)

theorem process_one_ok (m0 : Option V) (r : Record V) (m' : Option V)
    (tr : Record V) (b : Bool)
    (h : process_one tf normDt truthy bfO bt ld li parent parentId m0 r
        = .ok (m', tr, b)) :
    tr = stageRecord tf truthy parent parentId r
    ∧ m' = (match bmLookup bfO tr with
            | none => m0
            | some v => bumpMax m0 v)
    ∧ b = passB normDt bfO bt ld li tr := by
  unfold process_one at h
  cases hbm : bmLookup bfO (stageRecord tf truthy parent parentId r) with
  | none =>
    simp only [hbm] at h
    simp only [Except.ok.injEq, Prod.mk.injEq] at h
    obtain ⟨hm, ht, hb⟩ := h
    subst ht
    refine ⟨rfl, ?_, ?_⟩
    · rw [hbm]; exact hm.symm
    · simp [passB, hbm, hb]
  | some v =>
    simp only [hbm] at h
    cases hf : recFilter normDt bt ld li v with
    | error e => rw [hf] at h; simp [Except.map] at h
    | ok b' =>
      rw [hf] at h
      simp only [Except.map, Except.ok.injEq, Prod.mk.injEq] at h
      obtain ⟨hm, ht, hb⟩ := h
      subst ht
      refine ⟨rfl, ?_, ?_⟩
      · rw [hbm]; exact hm.symm
      · simp [passB, hbm, hf, hb]

theorem process_records_cons (r : Record V) (rs : List (Record V))
    (m0 : Option V) (pr : PRResult V)
    (hok : process_records tf normDt truthy bfO bt ld li parent parentId
        (r :: rs) m0 = .ok pr) :
    ∃ m' tr b pr',
      process_one tf normDt truthy bfO bt ld li parent parentId m0 r
        = .ok (m', tr, b)
      ∧ process_records tf normDt truthy bfO bt ld li parent parentId rs m'
        = .ok pr'
      ∧ pr = ⟨pr'.maxBm, tr :: pr'.staged,
              if b then tr :: pr'.emitted else pr'.emitted⟩ := by
  simp only [process_records] at hok
  split at hok
  · exact absurd hok (by simp)
  · rename_i m' tr b h1
    split at hok
    · exact absurd hok (by simp)
    · rename_i pr' h2
      refine ⟨m', tr, b, pr', h1, h2, ?_⟩
      injection hok with h
      exact h.symm

theorem process_records_staged (rs : List (Record V)) (m0 : Option V)
    (pr : PRResult V)
    (hok : process_records tf normDt truthy bfO bt ld li parent parentId rs m0 = .ok pr) :
    pr.staged = rs.map (stageRecord tf truthy parent parentId) := by
  induction rs generalizing m0 pr with
  | nil =>
    simp only [process_records] at hok
    cases hok
    rfl
  | cons r t ih =>
    obtain ⟨m', tr, b, pr', h1, h2, rfl⟩ :=
      process_records_cons tf normDt truthy bfO bt ld li parent parentId
        r t m0 pr hok
    obtain ⟨htr, -, -⟩ :=
      process_one_ok tf normDt truthy bfO bt ld li parent parentId m0 r m' tr b h1
    simp [List.map, htr, ih m' pr' h2]

theorem process_records_emitted (rs : List (Record V)) (m0 : Option V)
    (pr : PRResult V)
    (hok : process_records tf normDt truthy bfO bt ld li parent parentId rs m0 = .ok pr) :
    pr.emitted = pr.staged.filter (passB normDt bfO bt ld li) := by
  induction rs generalizing m0 pr with
  | nil =>
    simp only [process_records] at hok
    cases hok
    rfl
  | cons r t ih =>
    obtain ⟨m', tr, b, pr', h1, h2, rfl⟩ :=
      process_records_cons tf normDt truthy bfO bt ld li parent parentId
        r t m0 pr hok
    obtain ⟨-, -, hb⟩ :=
      process_one_ok tf normDt truthy bfO bt ld li parent parentId m0 r m' tr b h1
    simp only [List.filter]
    rw [ih m' pr' h2, hb]
    cases hpb : passB normDt bfO bt ld li tr <;> simp [hpb]

theorem process_records_maxBm (rs : List (Record V)) (m0 : Option V)
    (pr : PRResult V)
    (hok : process_records tf normDt truthy bfO bt ld li parent parentId rs m0 = .ok pr) :
    pr.maxBm = (pr.staged.filterMap (bmLookup bfO)).foldl bumpMax m0 := by
  induction rs generalizing m0 pr with
  | nil =>
    simp only [process_records] at hok
    cases hok
    rfl
  | cons r t ih =>
    obtain ⟨m', tr, b, pr', h1, h2, rfl⟩ :=
      process_records_cons tf normDt truthy bfO bt ld li parent parentId
        r t m0 pr hok
    obtain ⟨-, hm, -⟩ :=
      process_one_ok tf normDt truthy bfO bt ld li parent parentId m0 r m' tr b h1
    cases hbm : bmLookup bfO tr with
    | none =>
      rw [hbm] at hm
      simp [List.filterMap, hbm, ih m' pr' h2, hm]
    | some v =>
      rw [hbm] at hm
      simp [List.filterMap, hbm, ih m' pr' h2, hm]

end ProcessRecordsLemmas

/-! ### Window scheduler (sync.py lines 140-153 and 303-309)

Datetimes are modelled as integer timestamps (seconds); `timedelta(days=30)`
is `30 * 86400`.  `strptime_to_utc` is the identity on this representation.
The `while not start_window == now_datetime` loop is given explicit fuel;
each executed iteration advances `start_window` by at least one second, so
`(now - start).toNat + 1` fuel is exact whenever `start ≤ now`. -/

/-- Python `while not start_window == now_datetime` loop over date windows,
with the end-of-window increment of lines 303-309. -/
def windowLoop (d nowDt : Int) : Nat → Int → Int → List (Int × Int)
  | 0, _, _ => []
  | fuel + 1, s, e =>
    if s = nowDt then []
    else (s, e) :: windowLoop d nowDt fuel e (if e + d > nowDt then nowDt else e + d)

/-- Thirty days, the `days_interval` of sync.py line 143. -/
def daysInterval30 : Int := 30 * 86400

/-- Window sequence produced for a stream whose endpoint supports a from/to
range (sync.py lines 142-147, 153, 303-309), starting at the last bookmark. -/
def windows30 (lastDt nowDt : Int) : List (Int × Int) :=
  windowLoop daysInterval30 nowDt ((nowDt - lastDt).toNat + 1) lastDt
    (if lastDt + daysInterval30 > nowDt then nowDt else lastDt + daysInterval30)

/-- Local-variable resolution for sync.py lines 148-152: line 151 binds the
name `diff_secs`, but the expression on line 152 reads the unbound name
`diff_sec`, so Python raises `NameError` before the window loop is reached.
The `.ok` branch renders `math.ceil(diff / (3600 * 24))`; it is unreachable
because the environment never contains the name the code looks up. -/
def nonWindowedDaysInterval (startW endW : Int) : Except String Int :=
  let env : List (String × Int) := [("diff_secs", endW - startW)]
  match rget env "diff_sec" with
  | some v => .ok ((v + 86399) / 86400)
  | none => .error "NameError: name diff_sec is not defined"

/-! ### Bookmark store (sync.py lines 31-46) -/

/-- Persistent tap state.  The `bookmarks` key may be absent (`none`), and a
stored watermark is whatever value `write_bookmark` was handed — including
Python `None`, hence `Option Int`. -/
structure TapState where
  bookmarks : Option (List (String × Option Int))
deriving DecidableEq, Repr

/-- Shallow embedding of `get_bookmark`, sync.py lines 31-38. -/
def get_bookmark (st : TapState) (stream : String) (dflt : Option Int) : Option Int :=
  match st.bookmarks with
  | none => dflt
  | some bm =>
    match rget bm stream with
    | none => dflt
    | some v => v

/-- Shallow embedding of `write_bookmark`, sync.py lines 41-46 (the
`singer.write_state` persistence call is the state value itself). -/
def write_bookmark (st : TapState) (stream : String) (v : Option Int) : TapState :=
  ⟨some (setEntry (st.bookmarks.getD []) stream v)⟩

theorem get_bookmark_write_self (st : TapState) (stream : String)
    (v dflt : Option Int) :
    get_bookmark (write_bookmark st stream v) stream dflt = v := by
  unfold get_bookmark write_bookmark
  simp only
  rw [show setEntry (st.bookmarks.getD []) stream v
      = rset (st.bookmarks.getD []) stream v from rfl,
    rget_rset_self]

/-! ### Request parameters (sync.py lines 158-168 and 175-180) -/

/-- Query parameters: a Python dict rendered into `'%s=%s'` pairs, so values
are carried as strings. -/
abbrev Params := List (String × String)

/-- Querystring squash of sync.py line 178:
`'&'.join(['%s=%s' % (key, value) for (key, value) in params.items()])`. -/
def queryStringOf (p : Params) : String :=
  String.intercalate "&" (p.map (fun kv => kv.1 ++ "=" ++ kv.2))

/-- Python `str` of an optional integer (`'%s' % None` renders `None`). -/
def renderInt : Option Int → String
  | some n => toString n
  | none => "None"

/-- Rendering of `strftime(window_boundary)` on the timestamp model. -/
def strfTime (t : Int) : String := toString t

/-- Contents of the `params` dict after the assignments of sync.py lines
158-168.  Line 158 is `params = static_params`: a reference, not a copy, so
this value is also the new contents of the endpoint configuration's shared
`params` dict. -/
def paramsAfter (p : Params) (bqFrom bqTo : Option String) (bt : Option BType)
    (startW endW : Int) (li : Option Int) : Params :=
  if truthyS bqFrom then
    let p1 :=
      match bt, bqFrom with
      | some .datetime, some f => setEntry p f (strfTime startW)
      | some .integer, some f => setEntry p f (renderInt li)
      | _, _ => p
    if truthyS bqTo then
      match bt, bqTo with
      | some .datetime, some t => setEntry p1 t (strfTime endW)
      | _, _ => p1
    else p1
  else p

/-! ### Pager (sync.py lines 170-301, childless endpoints)

The HTTP accessor is modelled by an oracle list of parsed responses, one per
issued request.  Child-stream recursion (lines 234-282) only ever invokes
`sync_endpoint` for *child* stream names, so for endpoints without children
(`endpoint_config.get('children')` absent) the loop below is the whole body;
the parent-id selection logic inside that block is modelled separately as
`parentIdField`.  `LOGGER.info` calls are elided as logging I/O. -/

/-- Parsed response of one `client.get` call: the falsiness check of line 196
(`not data or data is None or data == {}`), the record lists reachable under
payload keys, the reported `count`, and the `next` continuation URL. -/
structure ApiData where
  empty : Bool
  table : List (String × List (Record Int))
  count : Nat
  next : Option String

/-- Modelled from the spec: `transform_json` (tap_saasoptics/transform.py is
not under src/) converts the raw payload into normalized records, "located
under a stream-specific key"; modelled as the lookup of the record list under
the given key of the payload. -/
def transform_json (d : ApiData) (key : String) : List (Record Int) :=
  (rget d.table key).getD []

/-- Python truthiness of an integer id value (`bool(0)` is `False`). -/
def truthyInt (v : Int) : Bool := decide (v ≠ 0)

/-- Record extraction, sync.py lines 200-208: with no `data_key` the literal
key `'results'` is used; with a `data_key` absent from the payload the
record list stays `[]` (and line 210 then returns). -/
def extractRecords (d : ApiData) (dataKey : Option String) : List (Record Int) :=
  match dataKey with
  | none => transform_json d "results"
  | some k => if (rget d.table k).isSome then transform_json d k else []

/-- Stream/endpoint configuration handed to `sync_endpoint` (immutable per
the spec).  `tf` and `normDt` are the external singer collaborators
`Transformer.transform` and `transform_datetime`. -/
structure EndpointCfg where
  streamName : String
  basePath : String
  staticParams : Params
  bqFrom : Option String
  bqTo : Option String
  bookmarkField : Option String
  bookmarkType : Option BType
  dataKey : Option String
  parent : Option String
  parentId : Option Int
  tf : Record Int → Record Int
  normDt : Int → Int

/-- One issued HTTP request: target URL and the optional squashed
querystring passed as `params=` (sync.py lines 186-192). -/
structure Request where
  url : String
  query : Option String
deriving DecidableEq, Repr

/-- How the pagination loop for one window ended. -/
inductive PLOutcome where
  /-- the continuation URL was absent: fall through to the next window -/
  | done
  /-- the `return total_records` with the freshly assigned `0` of lines
  196-198 or 210-212: `sync_endpoint` returns 0 -/
  | retEmpty
  /-- an uncaught Python `TypeError` escaped `process_records` -/
  | typeErr
  /-- model artifact: the response oracle was exhausted while a continuation
  URL was still present -/
  | starved
deriving DecidableEq, Repr

/-- Observations of one window's pagination loop: outcome, issued requests,
staged records seen, resulting tap state, running `max_bookmark_value`, and
the running `total_records` variable (`none` while still unbound). -/
structure PLRes where
  outcome : PLOutcome
  reqs : List Request
  seen : List (Record Int)
  st : TapState
  maxBm : Option Int
  total : Option Nat

/-- Shallow embedding of the pagination loop, sync.py lines 170-301 for a
childless endpoint: squash params into a querystring only on page 1
(lines 176-180), request, stop on an empty payload or an empty record list
(lines 196-198, 210-212), process the page, persist the bookmark when a
replication key is configured (lines 284-286), then follow `data['next']`. -/
def pageLoopGo (cfg : EndpointCfg) (ld li : Option Int) (params : Params) :
    List ApiData → Nat → String → Option Int → TapState → Option Nat → PLRes
  | [], _, _, maxBm, st, total => ⟨.starved, [], [], st, maxBm, total⟩
  | d :: rest, pageNum, nextUrl, maxBm, st, total =>
    let qs := if pageNum = 1 ∧ params ≠ [] then some (queryStringOf params) else none
    let req : Request := ⟨nextUrl, qs⟩
    if d.empty then ⟨.retEmpty, [req], [], st, maxBm, total⟩
    else
      let tdata := extractRecords d cfg.dataKey
      if tdata = [] then ⟨.retEmpty, [req], [], st, maxBm, total⟩
      else
        match process_records cfg.tf cfg.normDt truthyInt
            cfg.bookmarkField cfg.bookmarkType ld li cfg.parent cfg.parentId
            tdata maxBm with
        | .error _ => ⟨.typeErr, [req], [], st, maxBm, total⟩
        | .ok pr =>
          let st' := if truthyS cfg.bookmarkField then
              write_bookmark st cfg.streamName pr.maxBm else st
          match d.next with
          | none => ⟨.done, [req], pr.staged, st', pr.maxBm, some d.count⟩
          | some u =>
            let res := pageLoopGo cfg ld li params rest (pageNum + 1) u
                pr.maxBm st' (some d.count)
            ⟨res.outcome, req :: res.reqs, pr.staged ++ res.seen,
              res.st, res.maxBm, res.total⟩

/-- How a full `sync_endpoint` call ended. -/
inductive WOutcome where
  /-- normal `return total_records` at line 312 -/
  | ret (n : Nat)
  /-- the `return total_records` of the no-data paths: the value returned
  is the freshly assigned `0` -/
  | retEmpty
  /-- NameError at line 312: `total_records` was never assigned because no
  window iteration ran to the end of a page -/
  | unboundTotal
  /-- NameError at line 152: the unbound name `diff_sec` -/
  | unboundDiffSec
  /-- uncaught TypeError (e.g. `strptime_to_utc(None)` at lines 144/149) -/
  | typeErr
  | starved
  | fuelOut
deriving DecidableEq, Repr

/-- Observations of a full `sync_endpoint` call.  `params` is the final
contents of the endpoint configuration's `params` dict, which line 158
aliases rather than copies. -/
structure WRes where
  outcome : WOutcome
  reqs : List Request
  seen : List (Record Int)
  st : TapState
  params : Params
  maxBm : Option Int

/-- Window loop of `sync_endpoint`, sync.py lines 153-309: per window build
the request params in the shared dict, page through the window, then advance
the window (lines 303-309).  `pagesFor i` is the response oracle for the
`i`-th window's requests. -/
def windowedSyncGo (cfg : EndpointCfg) (pagesFor : Nat → List ApiData)
    (ld li : Option Int) (dInt nowDt : Int) :
    Nat → Nat → Int → Int → Params → TapState → Option Int → Option Nat → WRes
  | 0, _, _, _, params, st, maxBm, _ => ⟨.fuelOut, [], [], st, params, maxBm⟩
  | fuel + 1, widx, s, e, params, st, maxBm, total =>
    if s = nowDt then
      match total with
      | none => ⟨.unboundTotal, [], [], st, params, maxBm⟩
      | some n => ⟨.ret n, [], [], st, params, maxBm⟩
    else
      let params' := paramsAfter params cfg.bqFrom cfg.bqTo cfg.bookmarkType s e li
      let pl := pageLoopGo cfg ld li params' (pagesFor widx) 1 cfg.basePath maxBm st total
      match pl.outcome with
      | .done =>
        let res := windowedSyncGo cfg pagesFor ld li dInt nowDt fuel (widx + 1) e
            (if e + dInt > nowDt then nowDt else e + dInt) params' pl.st pl.maxBm pl.total
        ⟨res.outcome, pl.reqs ++ res.reqs, pl.seen ++ res.seen,
          res.st, res.params, res.maxBm⟩
      | .retEmpty => ⟨.retEmpty, pl.reqs, pl.seen, pl.st, params', pl.maxBm⟩
      | .typeErr => ⟨.typeErr, pl.reqs, pl.seen, pl.st, params', pl.maxBm⟩
      | .starved => ⟨.starved, pl.reqs, pl.seen, pl.st, params', pl.maxBm⟩

/-- Shallow embedding of `sync_endpoint`, sync.py lines 109-312, for a
childless endpoint: bookmark/watermark initialization (lines 127-136), the
window setup of lines 140-152 — including the `strptime_to_utc(None)`
TypeError an integer-typed stream hits because `last_datetime` is never set
for it, and the line 152 NameError of the non-windowed branch — and the
window loop. -/
def windowedSync (cfg : EndpointCfg) (pagesFor : Nat → List ApiData)
    (st0 : TapState) (startDate : Option Int) (nowDt : Int) : WRes :=
  let ld : Option Int := if cfg.bookmarkType = some .integer then none
      else get_bookmark st0 cfg.streamName startDate
  let li : Option Int := if cfg.bookmarkType = some .integer then
      get_bookmark st0 cfg.streamName (some 0) else none
  let maxBm : Option Int := if cfg.bookmarkType = some .integer then li else ld
  if truthyS cfg.bqFrom ∧ truthyS cfg.bqTo then
    match ld with
    | none => ⟨.typeErr, [], [], st0, cfg.staticParams, maxBm⟩
    | some l0 =>
      windowedSyncGo cfg pagesFor ld li daysInterval30 nowDt
        ((nowDt - l0).toNat + 1) 0 l0
        (if l0 + daysInterval30 > nowDt then nowDt else l0 + daysInterval30)
        cfg.staticParams st0 maxBm none
  else
    match ld with
    | none => ⟨.typeErr, [], [], st0, cfg.staticParams, maxBm⟩
    | some l0 =>
      match nonWindowedDaysInterval l0 nowDt with
      | .error _ => ⟨.unboundDiffSec, [], [], st0, cfg.staticParams, maxBm⟩
      | .ok dInt =>
        windowedSyncGo cfg pagesFor ld li dInt nowDt
          ((nowDt - l0).toNat + 1) 0 l0 nowDt cfg.staticParams st0 maxBm none

/-! ### Orchestrator (sync.py lines 326-395) -/

/-- Shallow embedding of `should_sync_stream`, sync.py lines 343-349.  When
the gate opens (`last_stream` matches or is absent) the returned
`last_stream` is `None` in *both* outcomes, because the local is cleared
before the selection test. -/
def should_sync_stream (selected : List String) (lastStream : Option String)
    (streamName : String) : Bool × Option String :=
  if lastStream = some streamName ∨ lastStream = none then
    (decide (streamName ∈ selected), none)
  else
    (false, lastStream)

/-- Observable actions of the `sync` orchestrator: marking the
currently-syncing pointer, invoking `sync_endpoint` for a stream, clearing
the pointer. -/
inductive SyncEvent where
  | setCur (s : String)
  | run (s : String)
  | clearCur
deriving DecidableEq, Repr

/-- Stream iteration of `sync`, sync.py lines 368-392: thread `last_stream`
through `should_sync_stream` and, for each stream that should run, mark it
currently-syncing, run it, then clear the pointer. -/
def syncStreamsGo (selected : List String) :
    List String → Option String → List SyncEvent
  | [], _ => []
  | n :: rest, lastStream =>
    let r := should_sync_stream selected lastStream n
    if r.1 then
      .setCur n :: .run n :: .clearCur :: syncStreamsGo selected rest r.2
    else
      syncStreamsGo selected rest r.2

/-- Shallow embedding of `sync`, sync.py lines 352-395: `streams` is the
declared stream order (the `STREAMS` dict of streams.py, whose keys are
unique), `selected` the catalog selection, `lastStream` the persisted
currently-syncing pointer.  An empty selection returns before the loop
(lines 359-360). -/
def syncRun (streams selected : List String) (lastStream : Option String) :
    List SyncEvent :=
  if selected = [] then [] else syncStreamsGo selected streams lastStream

/-- Parent-id key-property selection, the loop of sync.py lines 245-252:
`i = 0; for id_field in id_fields: if i == 0: pif = id_field;
if id_field == 'id': pif = id_field; i = i + 1`.  A `none` result models the
NameError raised when `id_fields` is empty and `parent_id_field` is read. -/
def parentIdFieldGo : Nat → Option String → List String → Option String
  | _, acc, [] => acc
  | i, acc, f :: rest =>
    parentIdFieldGo (i + 1)
      (if f = "id" then some f else if i = 0 then some f else acc) rest

/-- Field used to extract a parent record's id for child recursion. -/
def parentIdField (idFields : List String) : Option String :=
  parentIdFieldGo 0 none idFields

/-! ### Scheduler lemmas -/

theorem windowLoop_spec (d nowDt : Int) (hd : 0 < d) :
    ∀ (fuel : Nat) (s e : Int), s ≤ nowDt → e = min (s + d) nowDt →
      (nowDt - s).toNat < fuel →
      ((∀ x, (s ≤ x ∧ x < nowDt) ↔
          ∃ w ∈ windowLoop d nowDt fuel s e, w.1 ≤ x ∧ x < w.2)
        ∧ (∀ w ∈ windowLoop d nowDt fuel s e,
            s ≤ w.1 ∧ w.1 < w.2 ∧ w.2 = min (w.1 + d) nowDt)
        ∧ (windowLoop d nowDt fuel s e).Pairwise (fun a b => a.2 ≤ b.1)) := by
  intro fuel
  induction fuel with
  | zero => intro s e _ _ hf; exact absurd hf (Nat.not_lt_zero _)
  | succ f ih =>
    intro s e hs he hf
    by_cases hsn : s = nowDt
    · have hnil : windowLoop d nowDt (f + 1) s e = [] := by
        simp [windowLoop, hsn]
      rw [hnil]
      refine ⟨?_, by simp, List.Pairwise.nil⟩
      intro x
      constructor
      · rintro ⟨h1, h2⟩; exact absurd h2 (by omega)
      · rintro ⟨w, hw, -⟩; exact absurd hw (List.not_mem_nil w)
    · have hlt : s < nowDt := lt_of_le_of_ne hs hsn
      have hse : s < e := by omega
      have hen : e ≤ nowDt := by omega
      have hstep : windowLoop d nowDt (f + 1) s e
          = (s, e) :: windowLoop d nowDt f e
              (if e + d > nowDt then nowDt else e + d) := by
        simp [windowLoop, hsn]
      have hE : (if e + d > nowDt then nowDt else e + d) = min (e + d) nowDt := by
        split <;> omega
      have hf' : (nowDt - e).toNat < f := by omega
      obtain ⟨cov, mem, pw⟩ :=
        ih e (if e + d > nowDt then nowDt else e + d) hen hE hf'
      rw [hstep]
      refine ⟨?_, ?_, ?_⟩
      · intro x
        constructor
        · rintro ⟨hx1, hx2⟩
          by_cases hxe : x < e
          · exact ⟨(s, e), List.mem_cons_self _ _, hx1, hxe⟩
          · obtain ⟨w, hw, hwx⟩ := (cov x).1 ⟨by omega, hx2⟩
            exact ⟨w, List.mem_cons_of_mem _ hw, hwx⟩
        · rintro ⟨w, hw, hwx⟩
          rcases List.mem_cons.1 hw with rfl | hw'
          · exact ⟨hwx.1, lt_of_lt_of_le hwx.2 hen⟩
          · have h2 := (cov x).2 ⟨w, hw', hwx⟩
            exact ⟨by omega, h2.2⟩
      · intro w hw
        rcases List.mem_cons.1 hw with rfl | hw'
        · exact ⟨le_refl _, hse, he⟩
        · obtain ⟨h1, h2, h3⟩ := mem w hw'
          exact ⟨by omega, h2, h3⟩
      · exact List.Pairwise.cons (fun w hw => (mem w hw).1) pw

theorem windows30_spec (lastDt nowDt : Int) (h : lastDt ≤ nowDt) :
    (∀ x, (lastDt ≤ x ∧ x < nowDt) ↔
        ∃ w ∈ windows30 lastDt nowDt, w.1 ≤ x ∧ x < w.2)
    ∧ (∀ w ∈ windows30 lastDt nowDt,
        lastDt ≤ w.1 ∧ w.1 < w.2 ∧ w.2 = min (w.1 + daysInterval30) nowDt)
    ∧ (windows30 lastDt nowDt).Pairwise (fun a b => a.2 ≤ b.1) := by
  have hd : (0 : Int) < daysInterval30 := by unfold daysInterval30; norm_num
  exact windowLoop_spec daysInterval30 nowDt hd ((nowDt - lastDt).toNat + 1)
    lastDt _ h (by unfold daysInterval30; split <;> omega) (by omega)

theorem windows30_empty (nowDt : Int) : windows30 nowDt nowDt = [] := by
  have : (nowDt - nowDt).toNat + 1 = 1 := by omega
  rw [windows30, this]
  simp [windowLoop]

/-! ### Running-maximum lemmas -/

theorem bumpMax_some {V : Type} [LinearOrder V] (m v : V) :
    bumpMax (some m) v = some (max m v) := by
  show (if m < v then some v else some m) = some (max m v)
  split
  · rename_i h; rw [max_eq_right (le_of_lt h)]
  · rename_i h; rw [max_eq_left (not_lt.1 h)]

theorem foldl_bumpMax_some {V : Type} [LinearOrder V] (l : List V) (m : V) :
    l.foldl bumpMax (some m) = some (l.foldl max m) := by
  induction l generalizing m with
  | nil => rfl
  | cons a t ih => simp only [List.foldl, bumpMax_some]; exact ih (max m a)

theorem foldl_max_of_max {V : Type} [LinearOrder V] (t : List V) (b a : V) :
    t.foldl max (max b a) = max b (t.foldl max a) := by
  induction t generalizing a with
  | nil => rfl
  | cons c t ih =>
    simp only [List.foldl]
    rw [max_assoc, ih]

/-- Watermark value the spec claims as the new bookmark:
`max(old_bookmark, max over all seen records of record[key])`. -/
def specNewBookmark (b0 : Int) (vals : List Int) : Int :=
  match vals.max? with
  | none => b0
  | some m => max b0 m

theorem foldl_max_eq_specNewBookmark (l : List Int) (b : Int) :
    l.foldl max b = specNewBookmark b l := by
  cases l with
  | nil => rfl
  | cons a t =>
    show (a :: t).foldl max b = specNewBookmark b (a :: t)
    have hmax : (a :: t).max? = some (t.foldl max a) := rfl
    simp only [specNewBookmark, hmax, List.foldl]
    exact foldl_max_of_max t b a

theorem le_specNewBookmark (b : Int) (vals : List Int) :
    b ≤ specNewBookmark b vals := by
  unfold specNewBookmark
  cases vals.max? with
  | none => exact le_refl b
  | some m => exact le_max_left b m

/-- Bookmark-threading invariant of the pagination loop: starting from a
state whose persisted watermark is `b` and a running max of `b` (as lines
131-136 initialize it), after the loop both the persisted watermark and the
running max equal the fold of `max` over the replication-key values of every
staged record seen, seeded with `b`.  This holds on every exit path (normal
end, no-data return, starvation, or an uncaught TypeError), because the
empty-page return happens before `write_bookmark` in the iteration. -/
theorem pageLoopGo_bookmark (cfg : EndpointCfg) (ld li : Option Int)
    (params : Params) (dflt : Option Int)
    (hbf : truthyS cfg.bookmarkField = true)
    (pages : List ApiData) :
    ∀ (pageNum : Nat) (url : String) (b : Int) (st : TapState)
      (total : Option Nat),
      get_bookmark st cfg.streamName dflt = some b →
      get_bookmark
          (pageLoopGo cfg ld li params pages pageNum url (some b) st total).st
          cfg.streamName dflt
        = some (((pageLoopGo cfg ld li params pages pageNum url (some b)
              st total).seen.filterMap (bmLookup cfg.bookmarkField)).foldl max b)
      ∧ (pageLoopGo cfg ld li params pages pageNum url (some b) st total).maxBm
        = some (((pageLoopGo cfg ld li params pages pageNum url (some b)
              st total).seen.filterMap (bmLookup cfg.bookmarkField)).foldl max b) := by
  induction pages with
  | nil =>
    intro n url b st total hst
    exact ⟨by simpa [pageLoopGo] using hst, by simp [pageLoopGo]⟩
  | cons d rest ih =>
    intro n url b st total hst
    by_cases hemp : d.empty = true
    · refine ⟨by simpa [pageLoopGo, hemp] using hst, by simp [pageLoopGo, hemp]⟩
    · by_cases htd : extractRecords d cfg.dataKey = []
      · refine ⟨by simpa [pageLoopGo, hemp, htd] using hst,
          by simp [pageLoopGo, hemp, htd]⟩
      · cases hpr : process_records cfg.tf cfg.normDt truthyInt
            cfg.bookmarkField cfg.bookmarkType ld li cfg.parent cfg.parentId
            (extractRecords d cfg.dataKey) (some b) with
        | error e =>
          refine ⟨by simpa [pageLoopGo, hemp, htd, hpr] using hst,
            by simp [pageLoopGo, hemp, htd, hpr]⟩
        | ok pr =>
          have hmax : pr.maxBm
              = some ((pr.staged.filterMap (bmLookup cfg.bookmarkField)).foldl max b) := by
            have h1 := process_records_maxBm cfg.tf cfg.normDt truthyInt
              cfg.bookmarkField cfg.bookmarkType ld li cfg.parent cfg.parentId
              (extractRecords d cfg.dataKey) (some b) pr hpr
            rw [foldl_bumpMax_some] at h1
            exact h1
          have hst' : get_bookmark (write_bookmark st cfg.streamName pr.maxBm)
              cfg.streamName dflt
              = some ((pr.staged.filterMap (bmLookup cfg.bookmarkField)).foldl max b) := by
            rw [get_bookmark_write_self, hmax]
          cases hnx : d.next with
          | none =>
            refine ⟨?_, ?_⟩
            · simpa [pageLoopGo, hemp, htd, hpr, hnx, hbf] using hst'
            · simp [pageLoopGo, hemp, htd, hpr, hnx, hbf, hmax]
          | some u =>
            obtain ⟨ihst, ihmax⟩ := ih (n + 1) u
              ((pr.staged.filterMap (bmLookup cfg.bookmarkField)).foldl max b)
              (write_bookmark st cfg.streamName pr.maxBm) (some d.count) hst'
            rw [hmax] at ihst ihmax
            refine ⟨?_, ?_⟩
            · simp only [pageLoopGo, hemp, htd, hpr, hnx, hbf,
                Bool.false_eq_true, if_false, if_true, ite_true, ite_false]
              rw [List.filterMap_append, List.foldl_append, hmax]
              exact ihst
            · simp only [pageLoopGo, hemp, htd, hpr, hnx, hbf,
                Bool.false_eq_true, if_false, if_true, ite_true, ite_false]
              rw [List.filterMap_append, List.foldl_append, hmax]
              exact ihmax

/-! ### Claim C1 -/

/-- C1: for every stream and every sequence of pages processed by
`sync_endpoint`/`process_records`, with a replication key configured, the
bookmark persisted after processing is greater than or equal to the bookmark
before processing and equals `max(old_bookmark, max over all seen records of
record[key])` — over all staged records, emitted or not — for any
replication type (the running max is threaded identically for integer and
datetime cursors); the watermark is never regressed.  The state starts with
watermark `b0` and the running max is initialized to it, exactly as sync.py
lines 127-136 do. -/
theorem C1_bookmark_monotone_max (cfg : EndpointCfg) (ld li : Option Int)
    (params : Params) (pages : List ApiData) (url : String)
    (st0 : TapState) (dflt : Option Int) (b0 : Int)
    (hbf : truthyS cfg.bookmarkField = true)
    (hb0 : get_bookmark st0 cfg.streamName dflt = some b0) :
    get_bookmark (pageLoopGo cfg ld li params pages 1 url (some b0) st0 none).st
        cfg.streamName dflt
      = some (specNewBookmark b0
          ((pageLoopGo cfg ld li params pages 1 url (some b0) st0 none).seen.filterMap
            (bmLookup cfg.bookmarkField)))
    ∧ b0 ≤ specNewBookmark b0
        ((pageLoopGo cfg ld li params pages 1 url (some b0) st0 none).seen.filterMap
          (bmLookup cfg.bookmarkField)) := by
  obtain ⟨h1, -⟩ :=
    pageLoopGo_bookmark cfg ld li params dflt hbf pages 1 url b0 st0 none hb0
  rw [foldl_max_eq_specNewBookmark] at h1
  exact ⟨h1, le_specNewBookmark _ _⟩

/-- Endpoint configuration of an integer-cursor stream used to instantiate
claim C1. -/
def c1cfg : EndpointCfg :=
  { streamName := "invoices", basePath := "https://api/v1.0/invoices",
    staticParams := [], bqFrom := some "created_after", bqTo := some "created_before",
    bookmarkField := some "updated", bookmarkType := some .integer,
    dataKey := some "results", parent := none, parentId := none,
    tf := id, normDt := id }

/-- Two pages for the C1 instance: replication-key values 60 and 45 on the
first page (45 below the watermark, so seen but not emitted), 55 on the
second. -/
def c1pages : List ApiData :=
  [⟨false, [("results", [[("updated", 60)], [("updated", 45)]])], 3, some "page2"⟩,
   ⟨false, [("results", [[("updated", 55)]])], 3, none⟩]

/-- Initial state of the C1 instance: persisted watermark 50. -/
def c1st0 : TapState := ⟨some [("invoices", some 50)]⟩

theorem C1_bookmark_monotone_max_witness :
    (get_bookmark
        (pageLoopGo c1cfg none (some 50) [] c1pages 1 "https://api/v1.0/invoices"
          (some 50) c1st0 none).st c1cfg.streamName (some 0)
      = some (specNewBookmark 50
          ((pageLoopGo c1cfg none (some 50) [] c1pages 1 "https://api/v1.0/invoices"
            (some 50) c1st0 none).seen.filterMap (bmLookup c1cfg.bookmarkField)))
    ∧ (50 : Int) ≤ specNewBookmark 50
        ((pageLoopGo c1cfg none (some 50) [] c1pages 1 "https://api/v1.0/invoices"
          (some 50) c1st0 none).seen.filterMap (bmLookup c1cfg.bookmarkField)))
    ∧ get_bookmark
        (pageLoopGo c1cfg none (some 50) [] c1pages 1 "https://api/v1.0/invoices"
          (some 50) c1st0 none).st c1cfg.streamName (some 0) = some 60 := by
  refine ⟨?_, by decide⟩
  exact C1_bookmark_monotone_max c1cfg none (some 50) [] c1pages
    "https://api/v1.0/invoices" c1st0 (some 0) 50 (by decide) (by decide)

/-! ### Claim C2 -/

/-- C2: for every record processed by `process_records` with a configured
replication key, a record whose replication-key value is strictly below the
watermark (`last_integer`, or `last_datetime` after `transform_datetime`
normalization) is never emitted, and a record at or above the watermark is
emitted exactly as often as it occurs in the page. -/
theorem C2_filter_correctness {V : Type} [LinearOrder V] [DecidableEq V]
    (tf : Record V → Record V) (normDt : V → V) (truthy : V → Bool)
    (bf : String) (bt : Option BType) (ld li : Option V)
    (parent : Option String) (parentId : Option V)
    (rs : List (Record V)) (m0 : Option V) (pr : PRResult V)
    (hbf : bf ≠ "")
    (hok : process_records tf normDt truthy (some bf) bt ld li parent parentId
        rs m0 = .ok pr) :
    (∀ l, bt = some .integer → li = some l →
      ∀ t ∈ pr.staged, ∀ v, rget t bf = some v →
        (v < l → t ∉ pr.emitted)
        ∧ (l ≤ v → pr.emitted.count t = pr.staged.count t))
    ∧ (∀ l, bt = some .datetime → ld = some l →
      ∀ t ∈ pr.staged, ∀ v, rget t bf = some v →
        (normDt v < normDt l → t ∉ pr.emitted)
        ∧ (normDt l ≤ normDt v → pr.emitted.count t = pr.staged.count t)) := by
  have hem := process_records_emitted tf normDt truthy (some bf) bt ld li
    parent parentId rs m0 pr hok
  constructor
  · rintro l rfl rfl t ht v hv
    have hpass : passB normDt (some bf) (some .integer) ld (some l) t
        = decide (l ≤ v) := by
      simp [passB, bmLookup, hbf, hv, recFilter]
    constructor
    · intro hlt
      rw [hem]
      intro hmem
      have hp := (List.mem_filter.1 hmem).2
      rw [hpass] at hp
      exact absurd (of_decide_eq_true hp) (not_le.2 hlt)
    · intro hle
      rw [hem]
      exact List.count_filter (by rw [hpass]; exact decide_eq_true hle)
  · rintro l rfl rfl t ht v hv
    have hpass : passB normDt (some bf) (some .datetime) (some l) li t
        = decide (normDt l ≤ normDt v) := by
      simp [passB, bmLookup, hbf, hv, recFilter]
    constructor
    · intro hlt
      rw [hem]
      intro hmem
      have hp := (List.mem_filter.1 hmem).2
      rw [hpass] at hp
      exact absurd (of_decide_eq_true hp) (not_le.2 hlt)
    · intro hle
      rw [hem]
      exact List.count_filter (by rw [hpass]; exact decide_eq_true hle)

/-- Page of the C2 scenario: an integer-cursor page with ids 48, 52, 55. -/
def c2recs : List (Record Int) := [[("id", 48)], [("id", 52)], [("id", 55)]]

/-- Expected `process_records` observations for the C2 scenario: max
candidate 55; only 52 and 55 emitted. -/
def c2res : PRResult Int :=
  ⟨some 55, [[("id", 48)], [("id", 52)], [("id", 55)]],
    [[("id", 52)], [("id", 55)]]⟩

theorem C2_filter_correctness_witness :
    process_records (V := Int) id id truthyInt (some "id") (some .integer)
      none (some 50) none none c2recs (some 50) = .ok c2res
    ∧ [("id", (48 : Int))] ∉ c2res.emitted
    ∧ c2res.emitted.count [("id", (52 : Int))] = c2res.staged.count [("id", (52 : Int))]
    ∧ c2res.maxBm = some 55 := by
  have hok : process_records (V := Int) id id truthyInt (some "id")
      (some .integer) none (some 50) none none c2recs (some 50) = .ok c2res := by
    rfl
  have h := C2_filter_correctness (V := Int) id id truthyInt "id"
    (some .integer) none (some 50) none none c2recs (some 50) c2res
    (by decide) hok
  refine ⟨hok, ?_, ?_, by decide⟩
  · exact (h.1 50 rfl rfl [("id", 48)] (by decide) 48 (by decide)).1 (by decide)
  · exact (h.1 50 rfl rfl [("id", 52)] (by decide) 52 (by decide)).2 (by decide)

/-! ### Claim C3 -/

/-- C3 (amended): if a fetched page yields no records, the pagination stops
with the normal `return total_records = 0` of lines 196-198/210-212 — not an
error — and that return path performs no bookmark write; in particular, when
the first page fetched by the call is empty, the whole tap state (hence the
stream's bookmark) is unchanged from its pre-call value. -/
theorem C3_empty_first_page (cfg : EndpointCfg) (pagesFor : Nat → List ApiData)
    (st0 : TapState) (sd : Option Int) (nowDt l0 : Int)
    (d : ApiData) (rest : List ApiData)
    (hbq : truthyS cfg.bqFrom = true) (hbq2 : truthyS cfg.bqTo = true)
    (hbt : cfg.bookmarkType ≠ some .integer)
    (hld : get_bookmark st0 cfg.streamName sd = some l0)
    (hlt : l0 ≠ nowDt)
    (hpages : pagesFor 0 = d :: rest)
    (hd : d.empty = true) :
    (windowedSync cfg pagesFor st0 sd nowDt).outcome = .retEmpty
    ∧ (windowedSync cfg pagesFor st0 sd nowDt).st = st0 := by
  simp only [windowedSync, hbt, ite_false, if_false, hld, hbq, hbq2, and_self,
    ite_true, if_true]
  simp only [windowedSyncGo, if_neg hlt, hpages, pageLoopGo, hd, ite_true, if_true]
  constructor
  · trivial
  · trivial

/-- Endpoint configuration of the datetime stream used for claim C3. -/
def c3cfg : EndpointCfg :=
  { streamName := "contacts", basePath := "https://api/v1.0/contacts",
    staticParams := [], bqFrom := some "modified_after",
    bqTo := some "modified_before", bookmarkField := some "updated",
    bookmarkType := some .datetime, dataKey := some "results",
    parent := none, parentId := none, tf := id, normDt := id }

/-- Response oracle for the C3 counterexample: the first page carries one
record (replication key 150) and a continuation; the second page is empty. -/
def c3pages : Nat → List ApiData := fun _ =>
  [⟨false, [("results", [[("updated", 150)]])], 2,
      some "https://api/v1.0/contacts?page=2"⟩,
   ⟨true, [], 0, none⟩]

/-- Pre-call state for C3: persisted watermark 0 for `contacts`. -/
def c3st0 : TapState := ⟨some [("contacts", some 0)]⟩

theorem C3_counterexample :
    (windowedSync c3cfg c3pages c3st0 (some 0) 200).outcome = .retEmpty
    ∧ get_bookmark c3st0 "contacts" (some 0) = some 0
    ∧ get_bookmark (windowedSync c3cfg c3pages c3st0 (some 0) 200).st
        "contacts" (some 0) = some 150
    ∧ (150 : Int) ≠ 0 :=
  ⟨rfl, rfl, rfl, by decide⟩

/-- Response oracle whose very first page is empty, for the C3 witness. -/
def c3pagesEmpty : Nat → List ApiData := fun _ => [⟨true, [], 0, none⟩]

theorem C3_empty_first_page_witness :
    (windowedSync c3cfg c3pagesEmpty c3st0 (some 0) 200).outcome = .retEmpty
    ∧ (windowedSync c3cfg c3pagesEmpty c3st0 (some 0) 200).st = c3st0 :=
  C3_empty_first_page c3cfg c3pagesEmpty c3st0 (some 0) 200 0
    ⟨true, [], 0, none⟩ [] (by decide) (by decide) (by decide) (by rfl)
    (by decide) (by rfl) (by rfl)

/-! ### Claim C4 -/

/-- C4: for a stream with from/to range support and `last_bookmark ≤ now`,
the generated windows exactly cover the half-open range from the last
bookmark to now, with no gaps (every point of the range lies in a window and
no point outside it does), no overlaps, each window at most 30 days wide and
shorter only when clipped to now; and when the last bookmark equals now,
zero window iterations occur and no API requests are made. -/
theorem C4_window_coverage (lastDt nowDt : Int) (h : lastDt ≤ nowDt) :
    (∀ x, (lastDt ≤ x ∧ x < nowDt) ↔
        ∃ w ∈ windows30 lastDt nowDt, w.1 ≤ x ∧ x < w.2)
    ∧ (windows30 lastDt nowDt).Pairwise (fun a b => a.2 ≤ b.1)
    ∧ (∀ w ∈ windows30 lastDt nowDt,
        0 < w.2 - w.1 ∧ w.2 - w.1 ≤ daysInterval30
        ∧ (w.2 - w.1 < daysInterval30 → w.2 = nowDt))
    ∧ (lastDt = nowDt →
        windows30 lastDt nowDt = []
        ∧ ∀ (cfg : EndpointCfg) (pagesFor : Nat → List ApiData)
            (st0 : TapState) (sd : Option Int),
            truthyS cfg.bqFrom = true → truthyS cfg.bqTo = true →
            cfg.bookmarkType ≠ some .integer →
            get_bookmark st0 cfg.streamName sd = some nowDt →
            (windowedSync cfg pagesFor st0 sd nowDt).reqs = []) := by
  obtain ⟨cov, mem, pw⟩ := windows30_spec lastDt nowDt h
  refine ⟨cov, pw, ?_, ?_⟩
  · intro w hw
    obtain ⟨h1, h2, h3⟩ := mem w hw
    exact ⟨by omega, by omega, by omega⟩
  · rintro rfl
    refine ⟨windows30_empty lastDt, ?_⟩
    intro cfg pagesFor st0 sd hbq hbq2 hbt hld
    simp only [windowedSync, hbt, ite_false, if_false, hld, hbq, hbq2,
      and_self, ite_true, if_true]
    simp only [windowedSyncGo, if_pos rfl]
    rfl

theorem C4_window_coverage_witness :
    ((∀ x, ((0 : Int) ≤ x ∧ x < 3000000) ↔
        ∃ w ∈ windows30 0 3000000, w.1 ≤ x ∧ x < w.2)
    ∧ (windows30 0 3000000).Pairwise (fun a b => a.2 ≤ b.1)
    ∧ (∀ w ∈ windows30 0 3000000,
        0 < w.2 - w.1 ∧ w.2 - w.1 ≤ daysInterval30
        ∧ (w.2 - w.1 < daysInterval30 → w.2 = 3000000))
    ∧ ((0 : Int) = 3000000 →
        windows30 0 3000000 = []
        ∧ ∀ (cfg : EndpointCfg) (pagesFor : Nat → List ApiData)
            (st0 : TapState) (sd : Option Int),
            truthyS cfg.bqFrom = true → truthyS cfg.bqTo = true →
            cfg.bookmarkType ≠ some .integer →
            get_bookmark st0 cfg.streamName sd = some 3000000 →
            (windowedSync cfg pagesFor st0 sd 3000000).reqs = []))
    ∧ windows30 0 3000000 = [(0, 2592000), (2592000, 3000000)] :=
  ⟨C4_window_coverage 0 3000000 (by decide), by rfl⟩

/-! ### Claim C5 -/

/-- Endpoint configuration of a stream without from/to range support,
used for claim C5. -/
def c5cfg : EndpointCfg :=
  { streamName := "currencies", basePath := "https://api/v1.0/currencies",
    staticParams := [], bqFrom := none, bqTo := none,
    bookmarkField := some "updated", bookmarkType := some .datetime,
    dataKey := some "results", parent := none, parentId := none,
    tf := id, normDt := id }

/-- Pre-call state for C5. -/
def c5st0 : TapState := ⟨some [("currencies", some 0)]⟩

/-- C5: for a datetime stream whose API lacks range filtering, the
non-windowed branch of `sync_endpoint` evaluates `days_interval` from the
unbound name `diff_sec` (sync.py line 152) and therefore raises `NameError`
before any window is processed or request issued — it does not emit the
single full-span window the spec describes. -/
theorem C5_nonwindowed_nameerror :
    (windowedSync c5cfg (fun _ => []) c5st0 (some 0) 86400).outcome
      = .unboundDiffSec
    ∧ (windowedSync c5cfg (fun _ => []) c5st0 (some 0) 86400).reqs = []
    ∧ (windowedSync c5cfg (fun _ => []) c5st0 (some 0) 86400).st = c5st0
    ∧ nonWindowedDaysInterval 0 86400
        = .error "NameError: name diff_sec is not defined" :=
  ⟨rfl, rfl, rfl, rfl⟩

/-! ### Claim C6 -/

/-- Streams before the interrupted stream are skipped and leave the gate
unchanged (sync.py lines 343-349). -/
theorem syncStreamsGo_skip (selected : List String) (s : String) :
    ∀ (pre rest : List String), s ∉ pre →
      syncStreamsGo selected (pre ++ rest) (some s)
        = syncStreamsGo selected rest (some s) := by
  intro pre
  induction pre with
  | nil => intro rest _; rfl
  | cons p t ih =>
    intro rest hs
    have hne : s ≠ p := fun h => hs (h ▸ List.mem_cons_self p t)
    have hc : ¬((some s : Option String) = some p
        ∨ (some s : Option String) = none) := by
      simp [hne]
    rw [List.cons_append]
    simp only [syncStreamsGo, should_sync_stream, if_neg hc]
    exact ih rest (fun h => hs (List.mem_cons_of_mem _ h))

/-- With no interrupted stream recorded, every selected stream runs, in
order, bracketed by the currently-syncing pointer updates. -/
theorem syncStreamsGo_none (selected : List String) :
    ∀ l, syncStreamsGo selected l none
      = (l.filter (fun n => decide (n ∈ selected))).flatMap
          (fun n => [SyncEvent.setCur n, SyncEvent.run n, SyncEvent.clearCur]) := by
  intro l
  induction l with
  | nil => rfl
  | cons n t ih =>
    have hc : ((none : Option String) = some n
        ∨ (none : Option String) = none) := Or.inr rfl
    simp only [syncStreamsGo, should_sync_stream, if_pos hc, List.filter_cons]
    by_cases hn : n ∈ selected
    · simp [hn, ih]
    · simp [hn, ih]

/-- C6 (amended): with a persisted currently-syncing pointer naming stream
`s`, a restarted run skips every declared stream before `s`; it runs `s`
only if `s` is selected (the resume gate clears at `s` regardless), then
runs exactly the selected streams after `s`, in declared order, marking each
run stream currently-syncing before running it and clearing the pointer when
it completes. -/
theorem C6_resumability_amended (pre post selected : List String) (s : String)
    (hpre : s ∉ pre) :
    syncRun (pre ++ s :: post) selected (some s)
      = ((s :: post).filter (fun n => decide (n ∈ selected))).flatMap
          (fun n => [SyncEvent.setCur n, SyncEvent.run n, SyncEvent.clearCur]) := by
  unfold syncRun
  by_cases hsel : selected = []
  · subst hsel
    simp
  · rw [if_neg hsel, syncStreamsGo_skip selected s pre (s :: post) hpre]
    have hc : ((some s : Option String) = some s
        ∨ (some s : Option String) = none) := Or.inl rfl
    simp only [syncStreamsGo, should_sync_stream, if_pos hc, List.filter_cons]
    by_cases hs : s ∈ selected
    · simp [hs, syncStreamsGo_none]
    · simp [hs, syncStreamsGo_none]

theorem C6_counterexample :
    SyncEvent.run "s" ∉ syncRun ["a", "s", "b"] ["b"] (some "s")
    ∧ syncRun ["a", "s", "b"] ["b"] (some "s")
        = [SyncEvent.setCur "b", SyncEvent.run "b", SyncEvent.clearCur] :=
  ⟨by decide, by decide⟩

theorem C6_resumability_amended_witness :
    syncRun (["a"] ++ "s" :: ["b"]) ["s", "b"] (some "s")
      = ((("s" : String) :: ["b"]).filter
          (fun n => decide (n ∈ ["s", "b"]))).flatMap
          (fun n => [SyncEvent.setCur n, SyncEvent.run n, SyncEvent.clearCur]) :=
  C6_resumability_amended ["a"] ["b"] ["s", "b"] "s" (by decide)

/-! ### Claim C7 -/

/-- C7 (amended): for a child-stream invocation of `process_records` whose
`parent` name is non-empty and whose `parent_id` is truthy (non-zero /
non-empty — line 73 gates the annotation on Python truthiness of both),
every emitted record carries the `<parent>_id` field with exactly the
supplied parent id, provided the external transformer preserves that
field. -/
theorem C7_child_parent_id {V : Type} [LinearOrder V]
    (tf : Record V → Record V) (normDt : V → V) (truthy : V → Bool)
    (bfO : Option String) (bt : Option BType) (ld li : Option V)
    (p : String) (pid : V) (rs : List (Record V)) (m0 : Option V)
    (pr : PRResult V)
    (hp : p ≠ "") (hpid : truthy pid = true)
    (htf : ∀ r, rget (tf r) (p ++ "_id") = rget r (p ++ "_id"))
    (hok : process_records tf normDt truthy bfO bt ld li (some p) (some pid)
        rs m0 = .ok pr) :
    ∀ t ∈ pr.emitted, rget t (p ++ "_id") = some pid := by
  intro t ht
  rw [process_records_emitted tf normDt truthy bfO bt ld li (some p)
    (some pid) rs m0 pr hok] at ht
  have hts : t ∈ pr.staged := (List.mem_filter.1 ht).1
  rw [process_records_staged tf normDt truthy bfO bt ld li (some p)
    (some pid) rs m0 pr hok] at hts
  obtain ⟨r, -, rfl⟩ := List.mem_map.1 hts
  show rget (tf (annotate truthy (some p) (some pid) r)) (p ++ "_id") = some pid
  rw [htf]
  show rget (if truthy pid ∧ p ≠ "" then rset r (p ++ "_id") pid else r)
      (p ++ "_id") = some pid
  rw [if_pos ⟨hpid, hp⟩]
  exact rget_rset_self r (p ++ "_id") pid

theorem C7_counterexample :
    process_records (V := Int) id id truthyInt none none none none
      (some "accounts") (some 0) [[("total", 5)]] none
      = .ok ⟨none, [[("total", 5)]], [[("total", 5)]]⟩
    ∧ rget ([("total", (5 : Int))]) "accounts_id" = none :=
  ⟨rfl, rfl⟩

/-- Expected observations of the C7 witness run: the annotation writes
`accounts_id = 7` before the (identity) transform, so the emitted record
carries it. -/
def c7res : PRResult Int :=
  ⟨none, [[("total", 5), ("accounts_id", 7)]],
    [[("total", 5), ("accounts_id", 7)]]⟩

theorem C7_child_parent_id_witness :
    process_records (V := Int) id id truthyInt none none none none
      (some "accounts") (some 7) [[("total", 5)]] none = .ok c7res
    ∧ ∀ t ∈ c7res.emitted, rget t ("accounts" ++ "_id") = some (7 : Int) := by
  have hok : process_records (V := Int) id id truthyInt none none none none
      (some "accounts") (some 7) [[("total", 5)]] none = .ok c7res := by rfl
  exact ⟨hok, C7_child_parent_id (V := Int) id id truthyInt none none none none
    "accounts" 7 [[("total", 5)]] none c7res (by decide) (by decide)
    (fun r => rfl) hok⟩

/-! ### Claim C8 -/

theorem parentIdFieldGo_of_pos (t : List String) :
    ∀ (i : Nat) (a : String), i ≠ 0 →
      parentIdFieldGo i (some a) t = some (if "id" ∈ t then "id" else a) := by
  induction t with
  | nil => intro i a _; simp [parentIdFieldGo]
  | cons f t ih =>
    intro i a hi
    simp only [parentIdFieldGo]
    by_cases hf : f = "id"
    · subst hf
      rw [if_pos rfl, ih (i + 1) "id" (by omega)]
      simp [List.mem_cons]
    · have hfi : ("id" = f) = False := eq_false (fun h => hf h.symm)
      rw [if_neg hf, if_neg hi, ih (i + 1) a (by omega)]
      simp [List.mem_cons, hfi]

/-- C8 (amended): the field used to extract the parent id is `'id'` when a
field literally named `id` occurs anywhere in the key-property list;
otherwise it is the FIRST key-property field (the `i == 0` guard of line 248
only ever fires on the first iteration), not the last. -/
theorem C8_parent_id_field_amended (fs : List String) (h : fs ≠ []) :
    parentIdField fs = some (if "id" ∈ fs then "id" else fs.headD "") := by
  cases fs with
  | nil => exact absurd rfl h
  | cons f t =>
    show parentIdFieldGo 1
        (if f = "id" then some f else if (0 : Nat) = 0 then some f else none) t
      = some (if "id" ∈ f :: t then "id" else (f :: t).headD "")
    have hacc : (if f = "id" then some f
        else if (0 : Nat) = 0 then some f else none) = some f := by
      split <;> simp
    rw [hacc, parentIdFieldGo_of_pos t 1 f (by omega)]
    by_cases hf : f = "id"
    · subst hf; simp [List.mem_cons]
    · have hfi : ("id" = f) = False := eq_false (fun h => hf h.symm)
      simp [List.mem_cons, hfi]

theorem C8_counterexample :
    parentIdField ["account_key", "sub_key"] = some "account_key"
    ∧ ("account_key" : String) ≠ "sub_key"
    ∧ ("id" : String) ∉ ["account_key", "sub_key"] :=
  ⟨rfl, by decide, by decide⟩

theorem C8_parent_id_field_amended_witness :
    parentIdField ["account_key", "sub_key"]
      = some (if "id" ∈ ["account_key", "sub_key"] then "id"
              else (["account_key", "sub_key"] : List String).headD "") :=
  C8_parent_id_field_amended ["account_key", "sub_key"] (by decide)

/-! ### Claim C9 -/

/-- Endpoint configuration of a windowed datetime stream with a static
`sort` parameter, used for claim C9. -/
def c9cfg : EndpointCfg :=
  { streamName := "subscriptions", basePath := "https://api/v1.0/subscriptions",
    staticParams := [("sort", "id")], bqFrom := some "created_after",
    bqTo := some "created_before", bookmarkField := some "updated",
    bookmarkType := some .datetime, dataKey := some "results",
    parent := none, parentId := none, tf := id, normDt := id }

/-- Response oracle for C9: one page whose record list is empty. -/
def c9pages : Nat → List ApiData := fun _ => [⟨false, [("results", [])], 0, none⟩]

/-- Pre-call state for C9. -/
def c9st0 : TapState := ⟨some [("subscriptions", some 0)]⟩

/-- C9: because line 158 binds `params` to the endpoint configuration's
`params` dict by reference, the window's from/to values are written into the
shared stream definition: after one `sync_endpoint` call the static params
mapping has gained the `created_after`/`created_before` keys, contradicting
the read-only life cycle the spec states. -/
theorem C9_static_params_mutated :
    c9cfg.staticParams = [("sort", "id")]
    ∧ (windowedSync c9cfg c9pages c9st0 (some 0) 86400).params
        = [("sort", "id"), ("created_after", "0"), ("created_before", "86400")]
    ∧ (windowedSync c9cfg c9pages c9st0 (some 0) 86400).params
        ≠ c9cfg.staticParams :=
  ⟨rfl, by rfl, by decide⟩

/-! ### Claim C10 -/

/-- The first request of a pagination loop targets the URL the loop was
entered with, and carries the squashed querystring exactly when this is page
1 with non-empty params. -/
theorem pageLoopGo_head_req (cfg : EndpointCfg) (ld li : Option Int)
    (params : Params) (pages : List ApiData) (n : Nat) (url : String)
    (maxBm : Option Int) (st : TapState) (total : Option Nat) :
    ∀ r ∈ (pageLoopGo cfg ld li params pages n url maxBm st total).reqs.head?,
      r.url = url
      ∧ r.query = if n = 1 ∧ params ≠ [] then some (queryStringOf params)
          else none := by
  cases pages with
  | nil => intro r hr; simp [pageLoopGo] at hr
  | cons d rest =>
    intro r hr
    by_cases hemp : d.empty = true
    · simp [pageLoopGo, hemp] at hr
      subst hr; exact ⟨rfl, rfl⟩
    · by_cases htd : extractRecords d cfg.dataKey = []
      · simp [pageLoopGo, hemp, htd] at hr
        subst hr; exact ⟨rfl, rfl⟩
      · cases hpr : process_records cfg.tf cfg.normDt truthyInt
            cfg.bookmarkField cfg.bookmarkType ld li cfg.parent cfg.parentId
            (extractRecords d cfg.dataKey) maxBm with
        | error e =>
          simp [pageLoopGo, hemp, htd, hpr] at hr
          subst hr; exact ⟨rfl, rfl⟩
        | ok pr =>
          cases hnx : d.next with
          | none =>
            simp [pageLoopGo, hemp, htd, hpr, hnx] at hr
            subst hr; exact ⟨rfl, rfl⟩
          | some u =>
            simp [pageLoopGo, hemp, htd, hpr, hnx] at hr
            subst hr; exact ⟨rfl, rfl⟩

/-- Requests issued with a page counter other than 1 never carry a
querystring. -/
theorem pageLoopGo_no_query_of_ne_one (cfg : EndpointCfg) (ld li : Option Int)
    (params : Params) :
    ∀ (pages : List ApiData) (n : Nat), 2 ≤ n →
      ∀ (url : String) (maxBm : Option Int) (st : TapState) (total : Option Nat),
      ∀ r ∈ (pageLoopGo cfg ld li params pages n url maxBm st total).reqs,
        r.query = none := by
  intro pages
  induction pages with
  | nil => intro n hn url m st total r hr; simp [pageLoopGo] at hr
  | cons d rest ih =>
    intro n hn url m st total r hr
    have hq : (if n = 1 ∧ params ≠ [] then some (queryStringOf params)
        else none) = none := by
      rw [if_neg]; rintro ⟨h1, -⟩; omega
    by_cases hemp : d.empty = true
    · simp [pageLoopGo, hemp, hq] at hr
      rw [hr]
    · by_cases htd : extractRecords d cfg.dataKey = []
      · simp [pageLoopGo, hemp, htd, hq] at hr
        rw [hr]
      · cases hpr : process_records cfg.tf cfg.normDt truthyInt
            cfg.bookmarkField cfg.bookmarkType ld li cfg.parent cfg.parentId
            (extractRecords d cfg.dataKey) m with
        | error e =>
          simp [pageLoopGo, hemp, htd, hpr, hq] at hr
          rw [hr]
        | ok pr =>
          cases hnx : d.next with
          | none =>
            simp [pageLoopGo, hemp, htd, hpr, hnx, hq] at hr
            rw [hr]
          | some u =>
            simp [pageLoopGo, hemp, htd, hpr, hnx, hq] at hr
            rcases hr with hr | hr
            · rw [hr]
            · exact ih (n + 1) (by omega) u pr.maxBm _ (some d.count) r hr

theorem get_zero_mem_head {α : Type} (l : List α) (h : 0 < l.length) :
    l.get ⟨0, h⟩ ∈ l.head? := by
  cases l with
  | nil => exact absurd h (by simp)
  | cons a tl => simp

/-- Every request after the first targets exactly the continuation URL the
previous page's response supplied, with no querystring. -/
theorem pageLoopGo_chain (cfg : EndpointCfg) (ld li : Option Int)
    (params : Params) :
    ∀ (pages : List ApiData) (n : Nat) (url : String) (maxBm : Option Int)
      (st : TapState) (total : Option Nat), 1 ≤ n →
      ∀ (i : Nat)
        (h : i + 1 < (pageLoopGo cfg ld li params pages n url maxBm st total).reqs.length),
        ((pageLoopGo cfg ld li params pages n url maxBm st total).reqs.get
            ⟨i + 1, h⟩).query = none
        ∧ ∃ (hi : i < pages.length),
            (pages.get ⟨i, hi⟩).next
              = some ((pageLoopGo cfg ld li params pages n url maxBm st
                  total).reqs.get ⟨i + 1, h⟩).url := by
  intro pages
  induction pages with
  | nil =>
    intro n url m st total hn i h
    simp [pageLoopGo] at h
  | cons d rest ih =>
    intro n url m st total hn i h
    by_cases hemp : d.empty = true
    · have hlen : (pageLoopGo cfg ld li params (d :: rest) n url m st
          total).reqs.length = 1 := by
        simp [pageLoopGo, hemp]
      exact absurd (hlen ▸ h) (by omega)
    · by_cases htd : extractRecords d cfg.dataKey = []
      · have hlen : (pageLoopGo cfg ld li params (d :: rest) n url m st
            total).reqs.length = 1 := by
          simp [pageLoopGo, hemp, htd]
        exact absurd (hlen ▸ h) (by omega)
      · cases hpr : process_records cfg.tf cfg.normDt truthyInt
            cfg.bookmarkField cfg.bookmarkType ld li cfg.parent cfg.parentId
            (extractRecords d cfg.dataKey) m with
        | error e =>
          have hlen : (pageLoopGo cfg ld li params (d :: rest) n url m st
              total).reqs.length = 1 := by
            simp [pageLoopGo, hemp, htd, hpr]
          exact absurd (hlen ▸ h) (by omega)
        | ok pr =>
          cases hnx : d.next with
          | none =>
            have hlen : (pageLoopGo cfg ld li params (d :: rest) n url m st
                total).reqs.length = 1 := by
              simp [pageLoopGo, hemp, htd, hpr, hnx]
            exact absurd (hlen ▸ h) (by omega)
          | some u =>
            have hshape : (pageLoopGo cfg ld li params (d :: rest) n url m st
                total).reqs
                = ⟨url, if n = 1 ∧ params ≠ [] then some (queryStringOf params)
                    else none⟩
                  :: (pageLoopGo cfg ld li params rest (n + 1) u pr.maxBm
                      (if truthyS cfg.bookmarkField = true then
                        write_bookmark st cfg.streamName pr.maxBm else st)
                      (some d.count)).reqs := by
              simp [pageLoopGo, hemp, htd, hpr, hnx]
            cases i with
            | zero =>
              have h0 : 0 < (pageLoopGo cfg ld li params rest (n + 1) u
                  pr.maxBm
                  (if truthyS cfg.bookmarkField = true then
                    write_bookmark st cfg.streamName pr.maxBm else st)
                  (some d.count)).reqs.length := by
                have h2 := hshape ▸ h
                simp only [List.length_cons] at h2
                omega
              have hgv : (pageLoopGo cfg ld li params (d :: rest) n url m st
                    total).reqs.get ⟨0 + 1, h⟩
                  = (pageLoopGo cfg ld li params rest (n + 1) u pr.maxBm
                      (if truthyS cfg.bookmarkField = true then
                        write_bookmark st cfg.streamName pr.maxBm else st)
                      (some d.count)).reqs.get ⟨0, h0⟩ := by
                rw [List.get_of_eq hshape, List.get_cons_succ]
              obtain ⟨hu, -⟩ := pageLoopGo_head_req cfg ld li params rest
                (n + 1) u pr.maxBm
                (if truthyS cfg.bookmarkField = true then
                  write_bookmark st cfg.streamName pr.maxBm else st)
                (some d.count) _ (get_zero_mem_head _ h0)
              constructor
              · rw [hgv]
                exact pageLoopGo_no_query_of_ne_one cfg ld li params rest
                  (n + 1) (by omega) u pr.maxBm _ (some d.count) _
                  (List.get_mem _ _ _)
              · refine ⟨by simp, ?_⟩
                rw [hgv]
                show d.next = _
                rw [hnx, hu]
            | succ j =>
              have h' : j + 1 < (pageLoopGo cfg ld li params rest (n + 1) u
                  pr.maxBm
                  (if truthyS cfg.bookmarkField = true then
                    write_bookmark st cfg.streamName pr.maxBm else st)
                  (some d.count)).reqs.length := by
                have h2 := hshape ▸ h
                simp only [List.length_cons] at h2
                omega
              obtain ⟨hq, hj, hnext⟩ := ih (n + 1) u pr.maxBm
                (if truthyS cfg.bookmarkField = true then
                  write_bookmark st cfg.streamName pr.maxBm else st)
                (some d.count) (by omega) j h'
              have hgv : (pageLoopGo cfg ld li params (d :: rest) n url m st
                    total).reqs.get ⟨j + 1 + 1, h⟩
                  = (pageLoopGo cfg ld li params rest (n + 1) u pr.maxBm
                      (if truthyS cfg.bookmarkField = true then
                        write_bookmark st cfg.streamName pr.maxBm else st)
                      (some d.count)).reqs.get ⟨j + 1, h'⟩ := by
                rw [List.get_of_eq hshape, List.get_cons_succ]
              constructor
              · rw [hgv]
                exact hq
              · refine ⟨by simp only [List.length_cons]; omega, ?_⟩
                rw [hgv]
                show (rest.get ⟨j, hj⟩).next = _
                exact hnext

/-- C10: within a pagination traversal, the static and window-derived query
parameters are attached as a querystring only to the first request (page 1,
and only when the params dict is non-empty); every subsequent request is
issued to exactly the continuation URL supplied by the previous page's
response, with no querystring. -/
theorem C10_querystring_first_page_only (cfg : EndpointCfg)
    (ld li : Option Int) (params : Params) (pages : List ApiData)
    (url : String) (maxBm : Option Int) (st : TapState) (total : Option Nat) :
    (∀ r ∈ (pageLoopGo cfg ld li params pages 1 url maxBm st total).reqs.head?,
        r.url = url
        ∧ r.query = if params = [] then none else some (queryStringOf params))
    ∧ (∀ (i : Nat)
        (h : i + 1 < (pageLoopGo cfg ld li params pages 1 url maxBm st
            total).reqs.length),
        ((pageLoopGo cfg ld li params pages 1 url maxBm st total).reqs.get
            ⟨i + 1, h⟩).query = none
        ∧ ∃ (hi : i < pages.length),
            (pages.get ⟨i, hi⟩).next
              = some ((pageLoopGo cfg ld li params pages 1 url maxBm st
                  total).reqs.get ⟨i + 1, h⟩).url) := by
  constructor
  · intro r hr
    obtain ⟨h1, h2⟩ := pageLoopGo_head_req cfg ld li params pages 1 url
      maxBm st total r hr
    refine ⟨h1, ?_⟩
    rw [h2]
    by_cases hp : params = [] <;> simp [hp]
  · exact pageLoopGo_chain cfg ld li params pages 1 url maxBm st total
      (le_refl 1)

end Tap
